import Mathlib

/-!
Verification development for the PMA weather app frontend
(`src/frontend/src/App.jsx` and `src/frontend/src/api.js`).

Strings are modelled as `List Char`.  JavaScript numbers are modelled as
rationals (`ℚ`); machine-float rounding is outside the scope of the
properties below, which only involve exact decimal arithmetic.
-/

/-- The JavaScript whitespace class `\s` (also used by `String.prototype.trim`):
space, tab, LF, VT, FF, CR, NBSP, Ogham space mark, the U+2000–U+200A range,
LS, PS, NNBSP, MMSP, ideographic space and BOM. -/
def jsSpace (c : Char) : Bool :=
  decide (c.toNat = 32 ∨ c.toNat = 9 ∨ c.toNat = 10 ∨ c.toNat = 11 ∨ c.toNat = 12 ∨
    c.toNat = 13 ∨ c.toNat = 160 ∨ c.toNat = 5760 ∨
    (8192 ≤ c.toNat ∧ c.toNat ≤ 8202) ∨ c.toNat = 8232 ∨ c.toNat = 8233 ∨
    c.toNat = 8239 ∨ c.toNat = 8287 ∨ c.toNat = 12288 ∨ c.toNat = 65279)

/-- The regex digit class `\d`, i.e. the characters `0`–`9` (codepoints 48–57). -/
def jsDigit (c : Char) : Bool :=
  decide (48 ≤ c.toNat ∧ c.toNat ≤ 57)

/-- `String.prototype.trim`: strips leading and trailing `\s` characters. -/
def jsTrim (cs : List Char) : List Char :=
  ((cs.dropWhile jsSpace).reverse.dropWhile jsSpace).reverse

/-- The `-?` part of `COORD_RE`: an optional leading minus sign. -/
def eatSign (cs : List Char) : List Char :=
  match cs with
  | c :: rest => if c = '-' then rest else cs
  | [] => []

/-- The `\d+` part of `COORD_RE`: one or more digits (maximal munch; since the
regex continuation after each `\d+` can never consume a digit, greedy matching
with no backtracking recognises the same strings). -/
def eatDigits1 (cs : List Char) : Option (List Char) :=
  match cs with
  | c :: rest => if jsDigit c then some (rest.dropWhile jsDigit) else none
  | [] => none

/-- The `\.?` part of `COORD_RE`: an optional decimal point. -/
def eatDot (cs : List Char) : List Char :=
  match cs with
  | c :: rest => if c = '.' then rest else cs
  | [] => []

/-- A `,` literal. -/
def eatComma (cs : List Char) : Option (List Char) :=
  match cs with
  | c :: rest => if c = ',' then some rest else none
  | [] => none

/-- The numeric token `-?\d+\.?\d*` of `COORD_RE`. -/
def eatNum (cs : List Char) : Option (List Char) :=
  (eatDigits1 (eatSign cs)).map (fun ds => (eatDot ds).dropWhile jsDigit)

/-- The body of `COORD_RE = /^\s*-?\d+\.?\d*\s*,\s*-?\d+\.?\d*\s*$/` up to the
final end-of-input check: returns the unconsumed remainder on success. -/
def coordTail (cs : List Char) : Option (List Char) :=
  (eatNum (cs.dropWhile jsSpace)).bind fun cs1 =>
  (eatComma (cs1.dropWhile jsSpace)).bind fun cs2 =>
  (eatNum (cs2.dropWhile jsSpace)).map fun cs3 =>
  cs3.dropWhile jsSpace

/-- `COORD_RE.test`: the whole string must be consumed. -/
def coordRe (cs : List Char) : Bool :=
  match coordTail cs with
  | some rest => rest.isEmpty
  | none => false

/-- `ZIP_RE = /^\s*\d{5}\s*$/`. -/
def zipRe (cs : List Char) : Bool :=
  match cs.dropWhile jsSpace with
  | a :: b :: c :: d :: e :: rest =>
    jsDigit a && jsDigit b && jsDigit c && jsDigit d && jsDigit e &&
      (rest.dropWhile jsSpace).isEmpty
  | _ => false

/-- `isWordyQuery` from `App.jsx`: trims the query; empty, coordinate-pair and
ZIP inputs are not "wordy". -/
def isWordyQuery (q : List Char) : Bool :=
  let s := jsTrim q
  if s.isEmpty then false
  else if coordRe s then false
  else if zipRe s then false
  else true

-- ---------------------------------------------------------------------------
-- List/char lemmas used to reason about the whitespace-tolerant regexes
-- ---------------------------------------------------------------------------

theorem jsSpace_not_digit {w : Char} (h : jsSpace w = true) : jsDigit w = false := by
  simp only [jsSpace, decide_eq_true_eq] at h
  simp only [jsDigit, decide_eq_false_iff_not]
  omega

theorem jsDigit_not_space {c : Char} (h : jsDigit c = true) : jsSpace c = false := by
  simp only [jsDigit, decide_eq_true_eq] at h
  simp only [jsSpace, decide_eq_false_iff_not]
  omega

theorem jsSpace_ne_syms {w : Char} (h : jsSpace w = true) :
    w ≠ '-' ∧ w ≠ '.' ∧ w ≠ ',' := by
  refine ⟨?_, ?_, ?_⟩ <;> rintro rfl <;> revert h <;> decide

theorem dropWhile_idem (p : Char → Bool) (l : List Char) :
    (l.dropWhile p).dropWhile p = l.dropWhile p := by
  induction l with
  | nil => rfl
  | cons c t ih =>
    by_cases h : p c
    · simp [List.dropWhile_cons, h, ih]
    · simp [List.dropWhile_cons, h]

theorem dropWhile_append_pred_false {p : Char → Bool} {w : Char} (hw : p w = false)
    (xs : List Char) : (xs ++ [w]).dropWhile p = xs.dropWhile p ++ [w] := by
  induction xs with
  | nil => simp [List.dropWhile_cons, hw]
  | cons c t ih =>
    by_cases h : p c
    · simp [List.dropWhile_cons, h, ih]
    · simp [List.dropWhile_cons, h]

theorem dropWhile_append_pred_true {p : Char → Bool} {w : Char} (hw : p w = true)
    (xs : List Char) :
    (xs ++ [w]).dropWhile p =
      if xs.dropWhile p = [] then [] else xs.dropWhile p ++ [w] := by
  induction xs with
  | nil => simp [List.dropWhile_cons, hw]
  | cons c t ih =>
    by_cases h : p c
    · simp [List.dropWhile_cons, h, ih]
    · simp [List.dropWhile_cons, h]

theorem dropWhile_append_all {p : Char → Bool} {ws : List Char}
    (h : ∀ c ∈ ws, p c = true) (r : List Char) :
    (ws ++ r).dropWhile p = r.dropWhile p := by
  induction ws with
  | nil => rfl
  | cons c t ih =>
    simp only [List.cons_append, List.dropWhile_cons, h c (by simp)]
    exact ih fun d hd => h d (by simp [hd])

theorem dropWhile_eq_nil_of_all {p : Char → Bool} {ws : List Char}
    (h : ∀ c ∈ ws, p c = true) : ws.dropWhile p = [] := by
  have := dropWhile_append_all h []
  simpa using this

-- ---------------------------------------------------------------------------
-- Appending a whitespace character to the input of the regex matchers
-- ---------------------------------------------------------------------------

theorem eatSign_append {w : Char} (hw : w ≠ '-') (xs : List Char) :
    eatSign (xs ++ [w]) = eatSign xs ++ [w] := by
  cases xs with
  | nil => simp [eatSign, hw]
  | cons c t =>
    by_cases h : c = '-'
    · simp [eatSign, h]
    · simp [eatSign, h]

theorem eatDot_append {w : Char} (hw : w ≠ '.') (xs : List Char) :
    eatDot (xs ++ [w]) = eatDot xs ++ [w] := by
  cases xs with
  | nil => simp [eatDot, hw]
  | cons c t =>
    by_cases h : c = '.'
    · simp [eatDot, h]
    · simp [eatDot, h]

theorem eatDigits1_append {w : Char} (hw : jsDigit w = false) (xs : List Char) :
    eatDigits1 (xs ++ [w]) = (eatDigits1 xs).map (· ++ [w]) := by
  cases xs with
  | nil => simp [eatDigits1, hw]
  | cons c t =>
    by_cases h : jsDigit c
    · simp [eatDigits1, h, dropWhile_append_pred_false hw]
    · simp [eatDigits1, h]

theorem eatComma_append {w : Char} (hw : w ≠ ',') (xs : List Char) :
    eatComma (xs ++ [w]) = (eatComma xs).map (· ++ [w]) := by
  cases xs with
  | nil => simp [eatComma, hw]
  | cons c t =>
    by_cases h : c = ','
    · simp [eatComma, h]
    · simp [eatComma, h]

theorem eatNum_append {w : Char} (hd : jsDigit w = false) (h1 : w ≠ '-') (h2 : w ≠ '.')
    (xs : List Char) : eatNum (xs ++ [w]) = (eatNum xs).map (· ++ [w]) := by
  unfold eatNum
  rw [eatSign_append h1, eatDigits1_append hd]
  cases h : eatDigits1 (eatSign xs) with
  | none => simp
  | some ds => simp [eatDot_append h2, dropWhile_append_pred_false hd]

-- Removing one trailing whitespace character preserves a `COORD_RE` match.
theorem coordRe_strip {w : Char} (hw : jsSpace w = true) {xs : List Char}
    (h : coordRe (xs ++ [w]) = true) : coordRe xs = true := by
  obtain ⟨h1, h2, h3⟩ := jsSpace_ne_syms hw
  have hd : jsDigit w = false := jsSpace_not_digit hw
  unfold coordRe coordTail at h ⊢
  rw [dropWhile_append_pred_true hw] at h
  by_cases hys : xs.dropWhile jsSpace = []
  · rw [if_pos hys] at h
    simp [eatNum, eatSign, eatDigits1] at h
  · rw [if_neg hys, eatNum_append hd h1 h2] at h
    cases he1 : eatNum (xs.dropWhile jsSpace) with
    | none => rw [he1] at h; simp at h
    | some zs =>
      rw [he1] at h
      simp only [Option.map_some', Option.some_bind] at h
      rw [dropWhile_append_pred_true hw] at h
      by_cases hzs : zs.dropWhile jsSpace = []
      · rw [if_pos hzs] at h
        simp [eatComma] at h
      · rw [if_neg hzs, eatComma_append h3] at h
        cases he2 : eatComma (zs.dropWhile jsSpace) with
        | none => rw [he2] at h; simp at h
        | some vs =>
          rw [he2] at h
          simp only [Option.map_some', Option.some_bind] at h
          rw [dropWhile_append_pred_true hw] at h
          by_cases hvs : vs.dropWhile jsSpace = []
          · rw [if_pos hvs] at h
            simp [eatNum, eatSign, eatDigits1] at h
          · rw [if_neg hvs, eatNum_append hd h1 h2] at h
            cases he3 : eatNum (vs.dropWhile jsSpace) with
            | none => rw [he3] at h; simp at h
            | some rs =>
              rw [he3] at h
              simp only [Option.map_some', Option.map_map] at h
              rw [dropWhile_append_pred_true hw] at h
              simp only [Option.some_bind]
              rw [he2]
              simp only [Option.some_bind]
              rw [he3]
              simp only [Option.map_some']
              by_cases hrs : rs.dropWhile jsSpace = []
              · simp [hrs]
              · rw [if_neg hrs] at h
                simp at h

-- Removing one trailing whitespace character preserves a `ZIP_RE` match.
theorem zipRe_strip {w : Char} (hw : jsSpace w = true) {xs : List Char}
    (h : zipRe (xs ++ [w]) = true) : zipRe xs = true := by
  have hd : jsDigit w = false := jsSpace_not_digit hw
  unfold zipRe at h ⊢
  rw [dropWhile_append_pred_true hw] at h
  by_cases hys : xs.dropWhile jsSpace = []
  · rw [if_pos hys] at h
    simp at h
  · rw [if_neg hys] at h
    rcases hsh : xs.dropWhile jsSpace with _ | ⟨a, _ | ⟨b, _ | ⟨c, _ | ⟨d, _ | ⟨e, rest⟩⟩⟩⟩⟩ <;>
      rw [hsh] at h <;> simp only [List.cons_append, List.nil_append] at h
    · exact absurd hsh hys
    · simp at h
    · simp at h
    · simp at h
    · simp [hd] at h
    · simp only [Bool.and_eq_true] at h
      obtain ⟨⟨⟨⟨⟨ha, hb⟩, hc⟩, hdd⟩, he⟩, hrest⟩ := h
      rw [dropWhile_append_pred_true hw] at hrest
      by_cases hrs : rest.dropWhile jsSpace = []
      · simp [ha, hb, hc, hdd, he, hrs]
      · rw [if_neg hrs] at hrest
        simp at hrest

theorem coordRe_strip_all {ss : List Char} :
    (∀ c ∈ ss, jsSpace c = true) →
    ∀ {xs : List Char}, coordRe (xs ++ ss) = true → coordRe xs = true := by
  induction ss using List.reverseRecOn with
  | nil =>
    intro _ xs h
    simpa using h
  | append_singleton ts w ih =>
    intro hss xs h
    rw [← List.append_assoc] at h
    exact ih (fun c hc => hss c (by simp [hc])) (coordRe_strip (hss w (by simp)) h)

theorem zipRe_strip_all {ss : List Char} :
    (∀ c ∈ ss, jsSpace c = true) →
    ∀ {xs : List Char}, zipRe (xs ++ ss) = true → zipRe xs = true := by
  induction ss using List.reverseRecOn with
  | nil =>
    intro _ xs h
    simpa using h
  | append_singleton ts w ih =>
    intro hss xs h
    rw [← List.append_assoc] at h
    exact ih (fun c hc => hss c (by simp [hc])) (zipRe_strip (hss w (by simp)) h)

-- Dropping the leading whitespace, then removing the trailing whitespace,
-- decomposes a string as `jsTrim q ++ (whitespace suffix)`.
theorem trim_decomp (q : List Char) :
    ∃ ss, (∀ c ∈ ss, jsSpace c = true) ∧ q.dropWhile jsSpace = jsTrim q ++ ss := by
  refine ⟨((q.dropWhile jsSpace).reverse.takeWhile jsSpace).reverse, ?_, ?_⟩
  · intro c hc
    rw [List.mem_reverse] at hc
    exact List.mem_takeWhile_imp hc
  · unfold jsTrim
    calc q.dropWhile jsSpace = (q.dropWhile jsSpace).reverse.reverse := by
          rw [List.reverse_reverse]
    _ = ((q.dropWhile jsSpace).reverse.takeWhile jsSpace ++
          (q.dropWhile jsSpace).reverse.dropWhile jsSpace).reverse := by
          rw [List.takeWhile_append_dropWhile]
    _ = ((q.dropWhile jsSpace).reverse.dropWhile jsSpace).reverse ++
          ((q.dropWhile jsSpace).reverse.takeWhile jsSpace).reverse := by
          rw [List.reverse_append]

theorem coordRe_dropWhile (q : List Char) : coordRe (q.dropWhile jsSpace) = coordRe q := by
  unfold coordRe coordTail
  rw [dropWhile_idem]

theorem zipRe_dropWhile (q : List Char) : zipRe (q.dropWhile jsSpace) = zipRe q := by
  unfold zipRe
  rw [dropWhile_idem]

theorem coordRe_trim {q : List Char} (h : coordRe q = true) : coordRe (jsTrim q) = true := by
  obtain ⟨ss, hss, hdec⟩ := trim_decomp q
  rw [← coordRe_dropWhile, hdec] at h
  exact coordRe_strip_all hss h

theorem zipRe_trim {q : List Char} (h : zipRe q = true) : zipRe (jsTrim q) = true := by
  obtain ⟨ss, hss, hdec⟩ := trim_decomp q
  rw [← zipRe_dropWhile, hdec] at h
  exact zipRe_strip_all hss h

theorem isWordy_false_of_coord {q : List Char} (h : coordRe (jsTrim q) = true) :
    isWordyQuery q = false := by
  unfold isWordyQuery
  by_cases he : (jsTrim q).isEmpty <;> simp [he, h]

theorem isWordy_false_of_zip {q : List Char} (h : zipRe (jsTrim q) = true) :
    isWordyQuery q = false := by
  unfold isWordyQuery
  by_cases he : (jsTrim q).isEmpty <;> by_cases hc : coordRe (jsTrim q) <;>
    simp [he, hc, h]

-- ---------------------------------------------------------------------------
-- Autocomplete state (`App.jsx`: `cands`/`openSug` state, `scheduleSuggest`,
-- `chooseCand`)
-- ---------------------------------------------------------------------------

/-- A geocoding candidate as returned by `/locations/search`
(spec `ResolvedLocation`). -/
structure ResolvedLocation where
  name : List Char
  latitude : ℚ
  longitude : ℚ
deriving DecidableEq

/-- The effect of one `scheduleSuggest` call once its debounce timer (if any)
has fired: the new `cands`/`openSug` state, the search requests issued, and
the error message surfaced via `setError` (never set by this code path). -/
structure SuggestUpdate where
  cands : List ResolvedLocation
  openSug : Bool
  searchCalls : List (List Char)
  errorSet : Option (List Char)
deriving DecidableEq

/-- Result of the `searchLocations(q)` network call. -/
inductive SearchOutcome where
  | ok (res : List ResolvedLocation)
  | err (msg : List Char)

/-- Initial `cands` state: `useState([])`. -/
def initialCands : List ResolvedLocation := []

/-- `scheduleSuggest` from `App.jsx`.  A non-wordy query clears the candidates
and opens no request; otherwise the debounced `searchLocations(q)` call either
delivers `res` (kept as `res.slice(0,8)`, dropdown open iff `res.length>0`)
or rejects (candidates cleared, dropdown closed, no error surfaced). -/
def scheduleSuggest (q : List Char) (outcome : SearchOutcome) : SuggestUpdate :=
  if ! isWordyQuery q then
    { cands := [], openSug := false, searchCalls := [], errorSet := none }
  else
    match outcome with
    | .ok res =>
      { cands := res.take 8, openSug := decide (0 < res.length),
        searchCalls := [q], errorSet := none }
    | .err _ =>
      { cands := [], openSug := false, searchCalls := [q], errorSet := none }

/-- C1: every input matching the coordinate-pair pattern `COORD_RE` is
classified as a coordinate pair, not a freeform query: `isWordyQuery` is
`false` on it, so `scheduleSuggest` clears the suggestion list, closes the
dropdown and issues zero network calls, whatever the search oracle would
have answered. -/
theorem coord_pair_not_wordy_no_search (q : List Char) (h : coordRe q = true) :
    isWordyQuery q = false ∧
      ∀ outcome, scheduleSuggest q outcome =
        { cands := [], openSug := false, searchCalls := [], errorSet := none } := by
  have hw : isWordyQuery q = false := isWordy_false_of_coord (coordRe_trim h)
  refine ⟨hw, fun outcome => ?_⟩
  unfold scheduleSuggest
  rw [hw]
  rfl

/-- Witness for C1 at the concrete input `"40.71,-74.00"`. -/
theorem coord_pair_not_wordy_no_search_witness :
    isWordyQuery ("40.71,-74.00".toList) = false ∧
      scheduleSuggest ("40.71,-74.00".toList) (SearchOutcome.ok []) =
        { cands := [], openSug := false, searchCalls := [], errorSet := none } := by
  have h := coord_pair_not_wordy_no_search ("40.71,-74.00".toList) (by decide)
  exact ⟨h.1, h.2 _⟩

theorem exists_five {ds : List Char} (h : ds.length = 5) :
    ∃ a b c d e, ds = [a, b, c, d, e] := by
  rcases ds with _ | ⟨a, _ | ⟨b, _ | ⟨c, _ | ⟨d, _ | ⟨e, _ | ⟨f, t⟩⟩⟩⟩⟩⟩ <;>
    first
      | exact ⟨a, b, c, d, e, rfl⟩
      | simp at h

/-- C2: every string of exactly five digits with optional surrounding
whitespace matches `ZIP_RE`, is not a wordy query, and `scheduleSuggest`
issues no autocomplete search for it. -/
theorem zip_not_wordy_no_search (ws1 ds ws2 : List Char)
    (h1 : ∀ c ∈ ws1, jsSpace c = true) (h2 : ∀ c ∈ ws2, jsSpace c = true)
    (hlen : ds.length = 5) (hdig : ∀ c ∈ ds, jsDigit c = true) :
    zipRe (ws1 ++ ds ++ ws2) = true ∧
    isWordyQuery (ws1 ++ ds ++ ws2) = false ∧
    ∀ outcome, scheduleSuggest (ws1 ++ ds ++ ws2) outcome =
      { cands := [], openSug := false, searchCalls := [], errorSet := none } := by
  obtain ⟨a, b, c, d, e, rfl⟩ := exists_five hlen
  have hzip : zipRe (ws1 ++ [a, b, c, d, e] ++ ws2) = true := by
    unfold zipRe
    rw [List.append_assoc, dropWhile_append_all h1]
    have ha : jsSpace a = false := jsDigit_not_space (hdig a (by simp))
    rw [show ([a, b, c, d, e] ++ ws2).dropWhile jsSpace = a :: ([b, c, d, e] ++ ws2) by
      simp [List.dropWhile_cons, ha]]
    simp only [List.cons_append, List.nil_append]
    simp [hdig a (by simp), hdig b (by simp), hdig c (by simp), hdig d (by simp),
      hdig e (by simp), dropWhile_eq_nil_of_all h2]
  have hw : isWordyQuery (ws1 ++ [a, b, c, d, e] ++ ws2) = false :=
    isWordy_false_of_zip (zipRe_trim hzip)
  refine ⟨hzip, hw, fun outcome => ?_⟩
  unfold scheduleSuggest
  rw [hw]
  rfl

/-- Witness for C2 at the concrete input `" 12345 "`. -/
theorem zip_not_wordy_no_search_witness :
    zipRe ((" ".toList) ++ ("12345".toList) ++ (" ".toList)) = true ∧
    isWordyQuery ((" ".toList) ++ ("12345".toList) ++ (" ".toList)) = false := by
  have h := zip_not_wordy_no_search (" ".toList) ("12345".toList) (" ".toList)
    (by decide) (by decide) (by decide) (by decide)
  exact ⟨h.1, h.2.1⟩

/-- Renders `n / 10^d` with exactly `d` decimal digits (`n` a scaled
nonnegative integer). -/
def decRender (d : Nat) (n : Nat) : List Char :=
  let fracDigits := (toString (n % 10 ^ d)).toList
  (toString (n / 10 ^ d)).toList ++
    '.' :: (List.replicate (d - fracDigits.length) '0' ++ fracDigits)

/-- `Number.prototype.toFixed(d)` on the rational model: round the magnitude
to the nearest multiple of `10^-d` (ties away from zero) and render with `d`
decimals, with a leading minus sign for negative inputs. -/
def jsToFixed (d : Nat) (x : ℚ) : List Char :=
  if x < 0 then '-' :: decRender d (Int.toNat ⌊(-x) * (10 : ℚ) ^ d + 1 / 2⌋)
  else decRender d (Int.toNat ⌊x * (10 : ℚ) ^ d + 1 / 2⌋)

/-- The effect of `chooseCand(c,{autoFetch})` on the UI: sets the location
text to the candidate's name, clears the candidates, closes the dropdown, and
(when `autoFetch`) fetches with the `lat.toFixed(4),lon.toFixed(4)` string. -/
structure ChooseResult where
  location : List Char
  cands : List ResolvedLocation
  openSug : Bool
  autoFetched : Option (List Char)

def chooseCand (c : ResolvedLocation) (autoFetch : Bool) : ChooseResult :=
  { location := c.name
    cands := []
    openSug := false
    autoFetched :=
      if autoFetch then
        some (jsToFixed 4 c.latitude ++ ',' :: jsToFixed 4 c.longitude)
      else none }

/-- C6: the candidate list never exceeds 8 entries — the initial state, every
`scheduleSuggest` update (its success branch keeps `res.slice(0,8)`), and
`chooseCand` all yield at most 8 candidates; a failed search or a non-freeform
input yields an empty list with the dropdown closed and no error surfaced. -/
theorem cands_bounded_by_eight :
    initialCands.length ≤ 8 ∧
    (∀ q outcome, (scheduleSuggest q outcome).cands.length ≤ 8 ∧
      (scheduleSuggest q outcome).errorSet = none) ∧
    (∀ q msg, (scheduleSuggest q (.err msg)).cands = [] ∧
      (scheduleSuggest q (.err msg)).openSug = false) ∧
    (∀ q outcome, isWordyQuery q = false →
      scheduleSuggest q outcome =
        { cands := [], openSug := false, searchCalls := [], errorSet := none }) ∧
    (∀ c b, (chooseCand c b).cands = [] ∧ (chooseCand c b).openSug = false) := by
  refine ⟨by simp [initialCands], fun q outcome => ?_, fun q msg => ?_,
    fun q outcome hw => ?_, fun c b => ⟨rfl, rfl⟩⟩
  · unfold scheduleSuggest
    by_cases hw : isWordyQuery q
    · cases outcome with
      | ok res => simp [hw, List.length_take_le 8 res]
      | err msg => simp [hw]
    · simp [hw]
  · unfold scheduleSuggest
    by_cases hw : isWordyQuery q <;> simp [hw]
  · unfold scheduleSuggest
    rw [hw]
    rfl

/-- Witness for C6: the non-freeform branch at the concrete input `"12345"`. -/
theorem cands_bounded_by_eight_witness :
    scheduleSuggest ("12345".toList) (.err ("boom".toList)) =
      { cands := [], openSug := false, searchCalls := [], errorSet := none } :=
  cands_bounded_by_eight.2.2.2.1 _ _ (by decide)

-- ---------------------------------------------------------------------------
-- `fetchCurrent` input validation (C5)
-- ---------------------------------------------------------------------------

/-- The observable action `fetchCurrent` takes: either report a validation
error without any network request, or proceed to `fetchCurrentFor(location)`. -/
inductive FetchAction where
  | validationError (msg : List Char)
  | proceedWith (loc : List Char)
deriving DecidableEq

/-- `fetchCurrent` from `App.jsx`: `if(!location?.trim()){setError('Please
enter a location');return} fetchCurrentFor(location)`.  A `none` location
models a null/undefined `location` state (optional chaining). -/
def fetchCurrent (location : Option (List Char)) : FetchAction :=
  match location with
  | none => .validationError ("Please enter a location".toList)
  | some l =>
    if (jsTrim l).isEmpty then .validationError ("Please enter a location".toList)
    else .proceedWith l

/-- C5: an empty or whitespace-only location yields the validation error
"Please enter a location" and no network fetch; the fetch proceeds exactly
for inputs that are non-empty after trimming. -/
theorem empty_location_rejected (l : List Char) (h : jsTrim l = []) :
    fetchCurrent (some l) = .validationError ("Please enter a location".toList) ∧
    fetchCurrent none = .validationError ("Please enter a location".toList) ∧
    (∀ l', jsTrim l' ≠ [] →
      fetchCurrent (some l') = .proceedWith l') := by
  refine ⟨?_, rfl, fun l' h' => ?_⟩
  · simp [fetchCurrent, h]
  · simp [fetchCurrent, h']

/-- Witness for C5 at the whitespace-only input `"   "`. -/
theorem empty_location_rejected_witness :
    fetchCurrent (some ("   ".toList)) =
      .validationError ("Please enter a location".toList) :=
  (empty_location_rejected ("   ".toList) (by decide)).1

-- ---------------------------------------------------------------------------
-- JSON model (for `JSON.parse` / `JSON.stringify` as used by `api.js` and
-- `cleanErr`).  Numbers are modelled exactly as rationals.
-- ---------------------------------------------------------------------------

inductive Json where
  | null
  | bool (b : Bool)
  | num (q : ℚ)
  | str (s : List Char)
  | arr (items : List Json)
  | obj (fields : List (List Char × Json))

/-- JSON insignificant whitespace: space, tab, LF, CR. -/
def jsonWs (c : Char) : Bool :=
  decide (c.toNat = 32 ∨ c.toNat = 9 ∨ c.toNat = 10 ∨ c.toNat = 13)

def skipWs (cs : List Char) : List Char := cs.dropWhile jsonWs

def hexNibble (c : Char) : Option Nat :=
  let n := c.toNat
  if 48 ≤ n ∧ n ≤ 57 then some (n - 48)
  else if 97 ≤ n ∧ n ≤ 102 then some (n - 87)
  else if 65 ≤ n ∧ n ≤ 70 then some (n - 55)
  else none

def escChar (c : Char) : Option Char :=
  if c = '"' then some '"'
  else if c = '\\' then some '\\'
  else if c = '/' then some '/'
  else if c = 'b' then some (Char.ofNat 8)
  else if c = 'f' then some (Char.ofNat 12)
  else if c = 'n' then some '\n'
  else if c = 'r' then some '\r'
  else if c = 't' then some '\t'
  else none

/-- Scans a JSON string body (after the opening quote) up to and including the
closing quote, decoding escapes; returns the decoded string and the rest. -/
def scanStringBody : List Char → Option (List Char × List Char)
  | [] => none
  | '"' :: rest => some ([], rest)
  | '\\' :: 'u' :: a :: b :: c :: d :: rest => do
      let ha ← hexNibble a
      let hb ← hexNibble b
      let hc ← hexNibble c
      let hd ← hexNibble d
      let code := ha * 4096 + hb * 256 + hc * 16 + hd
      let p ← scanStringBody rest
      pure (Char.ofNat code :: p.1, p.2)
  | '\\' :: e :: rest => do
      let c ← escChar e
      let p ← scanStringBody rest
      pure (c :: p.1, p.2)
  | c :: rest =>
      if c.toNat < 32 then none
      else (scanStringBody rest).map (fun p => (c :: p.1, p.2))

def digitsToNat (ds : List Char) : Nat :=
  ds.foldl (fun a c => a * 10 + (c.toNat - 48)) 0

def qpow10 (e : Int) : ℚ :=
  if 0 ≤ e then ((10 : ℚ) ^ e.toNat) else ((10 : ℚ) ^ (-e).toNat)⁻¹

/-- The optional exponent part of a JSON number. -/
def scanExp (cs : List Char) : Option (Int × List Char) :=
  match cs with
  | 'e' :: r => scanExpTail r
  | 'E' :: r => scanExpTail r
  | _ => some (0, cs)
where
  scanExpTail (r : List Char) : Option (Int × List Char) :=
    let eneg : Bool := r.head? == some '-'
    let r1 := if r.head? == some '-' ∨ r.head? == some '+' then r.tail else r
    let ds := r1.takeWhile jsDigit
    if ds.isEmpty then none
    else some (if eneg then -(digitsToNat ds : Int) else (digitsToNat ds : Int),
      r1.dropWhile jsDigit)

/-- A JSON number `-?(0|[1-9][0-9]*)(\.[0-9]+)?([eE][+-]?[0-9]+)?`. -/
def scanNumber (cs : List Char) : Option (Json × List Char) :=
  let neg : Bool := cs.head? == some '-'
  let cs1 := if neg then cs.tail else cs
  let ip := cs1.takeWhile jsDigit
  let cs2 := cs1.dropWhile jsDigit
  if ip.isEmpty then none
  else if 1 < ip.length ∧ ip.head? = some '0' then none
  else
    let step2 : Option (List Char × List Char) :=
      match cs2 with
      | '.' :: r =>
        let f := r.takeWhile jsDigit
        if f.isEmpty then none else some (f, r.dropWhile jsDigit)
      | _ => some ([], cs2)
    match step2 with
    | none => none
    | some (f, cs3) =>
      match scanExp cs3 with
      | none => none
      | some (e, cs4) =>
        let mag : ℚ :=
          ((digitsToNat ip : ℚ) + (digitsToNat f : ℚ) / (10 : ℚ) ^ f.length) * qpow10 e
        some (.num (if neg then -mag else mag), cs4)

mutual

/-- Recursive-descent JSON value parser, fueled (the fuel bounds nesting). -/
def parseValue : Nat → List Char → Option (Json × List Char)
  | 0, _ => none
  | fuel + 1, cs =>
    match skipWs cs with
    | 'n' :: 'u' :: 'l' :: 'l' :: rest => some (.null, rest)
    | 't' :: 'r' :: 'u' :: 'e' :: rest => some (.bool true, rest)
    | 'f' :: 'a' :: 'l' :: 's' :: 'e' :: rest => some (.bool false, rest)
    | '"' :: rest => (scanStringBody rest).map (fun p => (.str p.1, p.2))
    | '[' :: rest => parseArr fuel rest
    | '{' :: rest => parseObj fuel rest
    | rest => scanNumber rest

def parseArr : Nat → List Char → Option (Json × List Char)
  | 0, _ => none
  | fuel + 1, cs =>
    match skipWs cs with
    | ']' :: rest => some (.arr [], rest)
    | _ => (parseItems fuel cs).map (fun p => (.arr p.1, p.2))

def parseItems : Nat → List Char → Option (List Json × List Char)
  | 0, _ => none
  | fuel + 1, cs => do
    let (v, r) ← parseValue fuel cs
    match skipWs r with
    | ',' :: r2 => (parseItems fuel r2).map (fun p => (v :: p.1, p.2))
    | ']' :: r2 => some ([v], r2)
    | _ => none

def parseObj : Nat → List Char → Option (Json × List Char)
  | 0, _ => none
  | fuel + 1, cs =>
    match skipWs cs with
    | '}' :: rest => some (.obj [], rest)
    | _ => (parseFields fuel cs).map (fun p => (.obj p.1, p.2))

def parseFields : Nat → List Char → Option (List (List Char × Json) × List Char)
  | 0, _ => none
  | fuel + 1, cs =>
    match skipWs cs with
    | '"' :: rest => do
      let (k, r) ← scanStringBody rest
      match skipWs r with
      | ':' :: r2 => do
        let (v, r3) ← parseValue fuel r2
        match skipWs r3 with
        | ',' :: r4 => (parseFields fuel r4).map (fun p => ((k, v) :: p.1, p.2))
        | '}' :: r4 => some ([(k, v)], r4)
        | _ => none
      | _ => none
    | _ => none

end

/-- `JSON.parse`: parse one value, allow trailing whitespace only.  The fuel
`4*length+4` dominates the recursion depth of any input of that length. -/
def parseJson (cs : List Char) : Option Json :=
  match parseValue (4 * cs.length + 4) cs with
  | some (v, rest) => if (skipWs rest).isEmpty then some v else none
  | none => none

def hexDigit (n : Nat) : Char :=
  if n < 10 then Char.ofNat (48 + n) else Char.ofNat (87 + n)

/-- JSON string escaping as performed by `JSON.stringify`. -/
def escapeStr : List Char → List Char
  | [] => []
  | c :: rest =>
    (if c = '"' then ['\\', '"']
     else if c = '\\' then ['\\', '\\']
     else if c = '\n' then ['\\', 'n']
     else if c = '\r' then ['\\', 'r']
     else if c = '\t' then ['\\', 't']
     else if c.toNat = 8 then ['\\', 'b']
     else if c.toNat = 12 then ['\\', 'f']
     else if c.toNat < 32 then
       ['\\', 'u', '0', '0', hexDigit (c.toNat / 16), hexDigit (c.toNat % 16)]
     else [c]) ++ escapeStr rest

/-- Decimal rendering of the rational number model (values produced by
`parseJson` always have a finite decimal expansion). -/
def renderNum (q : ℚ) : List Char :=
  if q.den = 1 then (toString q.num).toList
  else
    match (List.range 40).find? (fun k => (q * (10 : ℚ) ^ k).den = 1) with
    | some k =>
      let scaled : Int := (q * (10 : ℚ) ^ k).num
      let mag : Nat := scaled.natAbs
      let fracDigits := (toString (mag % 10 ^ k)).toList
      (if scaled < 0 then ['-'] else []) ++ (toString (mag / 10 ^ k)).toList ++
        '.' :: (List.replicate (k - fracDigits.length) '0' ++ fracDigits)
    | none => (toString q.num).toList ++ '/' :: (toString q.den).toList

mutual

/-- `JSON.stringify` (no spacing argument). -/
def stringify : Json → List Char
  | .null => 'n' :: 'u' :: 'l' :: 'l' :: []
  | .bool true => 't' :: 'r' :: 'u' :: 'e' :: []
  | .bool false => 'f' :: 'a' :: 'l' :: 's' :: 'e' :: []
  | .num q => renderNum q
  | .str s => '"' :: (escapeStr s ++ ['"'])
  | .arr items => '[' :: (stringifyItems items ++ [']'])
  | .obj fields => '{' :: (stringifyFields fields ++ ['}'])

def stringifyItems : List Json → List Char
  | [] => []
  | [v] => stringify v
  | v :: rest => stringify v ++ ',' :: stringifyItems rest

def stringifyFields : List (List Char × Json) → List Char
  | [] => []
  | [(k, v)] => '"' :: escapeStr k ++ '"' :: ':' :: stringify v
  | (k, v) :: rest =>
    ('"' :: escapeStr k ++ '"' :: ':' :: stringify v) ++ ',' :: stringifyFields rest

end

/-- JavaScript property access `j.k` on a parsed JSON value; with duplicate
keys `JSON.parse` keeps the last occurrence, hence the reversed lookup. -/
def Json.getField (j : Json) (k : List Char) : Option Json :=
  match j with
  | .obj fields => fields.reverse.lookup k
  | _ => none

/-- JavaScript truthiness of a parsed JSON value. -/
def jsTruthy : Json → Bool
  | .null => false
  | .bool b => b
  | .num q => decide (q ≠ 0)
  | .str s => decide (s ≠ [])
  | .arr _ => true
  | .obj _ => true

-- ---------------------------------------------------------------------------
-- `api.js` response handling and `App.jsx` `cleanErr`
-- ---------------------------------------------------------------------------

/-- A thrown JavaScript `Error`, identified by its message. -/
structure JsError where
  message : List Char
deriving DecidableEq

/-- `String(e)` for `e = new Error(msg)`. -/
def errString (e : JsError) : List Char :=
  if e.message.isEmpty then "Error".toList
  else "Error: ".toList ++ e.message

/-- What `handle` resolves to on a 2xx response. -/
inductive Handled where
  | json (v : Json)
  | text (s : List Char)

/-- `handle` from `api.js`.  On a non-2xx response the `throw` inside the
`try` block is immediately caught by its own `catch`, so the error thrown is
always `new Error(text || "HTTP <status>")` — the re-stringified JSON is
discarded.  On a 2xx response the body is parsed as JSON if possible and
returned as raw text otherwise. -/
def handle (ok : Bool) (status : Nat) (body : List Char) : Except JsError Handled :=
  if ! ok then
    .error ⟨if body.isEmpty then "HTTP ".toList ++ (toString status).toList else body⟩
  else
    match parseJson body with
    | some v => .ok (.json v)
    | none => .ok (.text body)

/-- `fun x => !(x = c)` as the `[^c]`-style predicate used below. -/
def neChar (c : Char) : Char → Bool := fun x => ! decide (x = c)

/-- The part of `s` from after the given character to the last occurrence of
that character (inclusive), if any. -/
def upToLast (c : Char) (s : List Char) : Option (List Char) :=
  match s.reverse.dropWhile (neChar c) with
  | [] => none
  | r => some r.reverse

/-- `s.match(/\x7b.*\x7d/s)`: with the dot-all flag and a greedy `.*` this is
the substring from the first `\x7b` to the last `\x7d` of the string, when the
former precedes the latter. -/
def braceSubstring (s : List Char) : Option (List Char) :=
  match s.dropWhile (neChar '{') with
  | c :: tail =>
    if c = '{' then (upToLast '}' tail).map (fun m => '{' :: m) else none
  | [] => none

/-- `s.replace(/^Error:\s*/, '')`. -/
def stripErrorLabel (s : List Char) : List Char :=
  if s.take 6 = "Error:".toList then (s.drop 6).dropWhile jsSpace else s

/-- `cleanErr` from `App.jsx`, on `s = String(e)`: extract the brace-delimited
substring, parse it, and surface a truthy `detail` (strings verbatim,
structured values re-stringified); otherwise return `s` with any leading
`Error:` label stripped. -/
def cleanErrStr (s : List Char) : List Char :=
  match braceSubstring s with
  | some m =>
    match parseJson m with
    | some j =>
      match j.getField ("detail".toList) with
      | some d =>
        if jsTruthy d then
          match d with
          | .str str => str
          | _ => stringify d
        else stripErrorLabel s
      | none => stripErrorLabel s
    | none => stripErrorLabel s
  | none => stripErrorLabel s

def cleanErr (e : JsError) : List Char := cleanErrStr (errString e)

-- A list ending in `}` is returned whole by `upToLast '\x7d'`.
theorem upToLast_full {t : List Char} (h : t.getLast? = some '}') :
    upToLast '}' t = some t := by
  have hrev : t.reverse.head? = some '}' := by
    rw [List.head?_reverse]
    exact h
  unfold upToLast
  rcases hr : t.reverse with _ | ⟨y, r⟩
  · simp [hr] at hrev
  · have hy : y = '}' := by
      rw [hr] at hrev
      simpa using hrev
    subst hy
    rw [show ('}' :: r).dropWhile (neChar '}') = '}' :: r by
      simp [List.dropWhile_cons, neChar]]
    show some (('}' :: r).reverse) = some t
    rw [← hr, List.reverse_reverse]

-- For a body that is a whole brace-wrapped JSON object, the greedy
-- `/\x7b.*\x7d/s` match on `"Error: " + body` is exactly `body`.
theorem braceSubstring_of_wrapped {t : List Char}
    (hl : ('{' :: t).getLast? = some '}') :
    braceSubstring ("Error: ".toList ++ '{' :: t) = some ('{' :: t) := by
  have hall : ∀ c ∈ "Error: ".toList, neChar '{' c = true := by decide
  have htail : t.getLast? = some '}' := by
    rcases t with _ | ⟨x, xs⟩
    · simp at hl
    · rw [List.getLast?_cons_cons] at hl
      exact hl
  unfold braceSubstring
  rw [dropWhile_append_all hall]
  rw [show ('{' :: t).dropWhile (neChar '{') = '{' :: t by
    simp [List.dropWhile_cons, neChar]]
  show (if ('{' : Char) = '{' then (upToLast '}' t).map (fun m => '{' :: m)
    else none) = some ('{' :: t)
  rw [if_pos rfl, upToLast_full htail]
  rfl

/-- C4 counterexample: for the non-2xx body `\x7b"detail":""\x7d` — a JSON
object containing `detail` — `cleanErr` does not return the `detail` value
(the empty string) verbatim: the falsy `detail` falls through to the raw-text
path, so the whole body is returned. -/
theorem cleanErr_empty_detail_counterexample :
    parseJson ("\x7b\"detail\":\"\"\x7d".toList) =
      some (.obj [("detail".toList, .str [])]) ∧
    handle false 400 ("\x7b\"detail\":\"\"\x7d".toList) =
      .error ⟨"\x7b\"detail\":\"\"\x7d".toList⟩ ∧
    cleanErr ⟨"\x7b\"detail\":\"\"\x7d".toList⟩ = ("\x7b\"detail\":\"\"\x7d".toList) ∧
    cleanErr ⟨"\x7b\"detail\":\"\"\x7d".toList⟩ ≠ [] := by
  exact ⟨rfl, rfl, rfl, by decide⟩

/-- C4 (amended): `handle` never resolves on a non-2xx response and throws an
`Error` carrying the raw body text, or `"HTTP <status>"` when the body is
empty; `cleanErr` returns the JSON body's `detail` field verbatim when the
body is a JSON object whose `detail` is a truthy (non-empty) string — a falsy
`detail`, e.g. the empty string, instead falls through to the raw-text path —
and otherwise (stated for brace-free bodies) returns the raw text with the
leading "Error: " label stripped. -/
theorem handle_throws_and_cleanErr_surfaces_detail
    (status : Nat) (t d : List Char)
    (hl : ('{' :: t).getLast? = some '}')
    (hpr : ∃ obj, parseJson ('{' :: t) = some obj ∧
      obj.getField ("detail".toList) = some (.str d))
    (hne : d ≠ []) :
    handle false status ('{' :: t) = .error ⟨'{' :: t⟩ ∧
    cleanErr ⟨'{' :: t⟩ = d ∧
    (∀ body, body.isEmpty = false → handle false status body = .error ⟨body⟩) ∧
    handle false status [] =
      .error ⟨"HTTP ".toList ++ (toString status).toList⟩ ∧
    (∀ body h, handle false status body ≠ .ok h) ∧
    (∀ c0 bs, (c0 :: bs).contains '{' = false → jsSpace c0 = false →
      cleanErr ⟨c0 :: bs⟩ = c0 :: bs) := by
  obtain ⟨obj, hp, hdet⟩ := hpr
  have h7 : ∀ c ∈ "Error: ".toList, neChar '{' c = true := by decide
  refine ⟨rfl, ?_, fun body hb => by simp [handle, hb], rfl,
    fun body h => by simp [handle], fun c0 bs hbrace hc0 => ?_⟩
  · unfold cleanErr errString cleanErrStr
    rw [if_neg (by simp)]
    rw [braceSubstring_of_wrapped hl]
    simp only [hp, hdet]
    have htr : jsTruthy (.str d) = true := by simp [jsTruthy, hne]
    rw [htr]
    simp
  · unfold cleanErr errString cleanErrStr
    rw [if_neg (by simp)]
    have hnb : ∀ c ∈ "Error: ".toList ++ c0 :: bs, neChar '{' c = true := by
      intro c hc
      rcases List.mem_append.mp hc with hc | hc
      · exact h7 c hc
      · have hcne : c ≠ '{' := by
          intro hcc
          subst hcc
          simp only [List.contains, List.elem_eq_mem, decide_eq_false_iff_not] at hbrace
          exact hbrace hc
        simp [neChar, hcne]
    rw [show braceSubstring ("Error: ".toList ++ c0 :: bs) = none by
      unfold braceSubstring
      rw [dropWhile_eq_nil_of_all hnb]]
    unfold stripErrorLabel
    rw [show ("Error: ".toList ++ c0 :: bs).take 6 = "Error:".toList from rfl]
    rw [if_pos rfl]
    rw [show ("Error: ".toList ++ c0 :: bs).drop 6 = ' ' :: c0 :: bs from rfl]
    rw [List.dropWhile_cons]
    rw [if_pos (by decide)]
    rw [List.dropWhile_cons]
    rw [if_neg (by simp [hc0])]

/-- Witness for C4 (amended) at the concrete body `\x7b"detail":"nope"\x7d`. -/
theorem handle_throws_and_cleanErr_surfaces_detail_witness :
    handle false 404 ("\x7b\"detail\":\"nope\"\x7d".toList) =
      .error ⟨"\x7b\"detail\":\"nope\"\x7d".toList⟩ ∧
    cleanErr ⟨"\x7b\"detail\":\"nope\"\x7d".toList⟩ = "nope".toList := by
  have h := handle_throws_and_cleanErr_surfaces_detail 404
    ("\"detail\":\"nope\"\x7d".toList) ("nope".toList) (by decide)
    ⟨.obj [("detail".toList, .str ("nope".toList))], rfl, rfl⟩ (by decide)
  exact ⟨h.1, h.2.1⟩

-- ---------------------------------------------------------------------------
-- `exportData` (C7)
-- ---------------------------------------------------------------------------

/-- `exportData` from `api.js`: the `json` format goes through `handle`; any
other format throws `new Error(text)` on a non-2xx response and returns the
raw body text otherwise. -/
def exportData (fmt : List Char) (ok : Bool) (status : Nat) (body : List Char) :
    Except JsError Handled :=
  if fmt = "json".toList then handle ok status body
  else if ! ok then .error ⟨body⟩
  else .ok (.text body)

/-- C7: `exportData` returns the parsed JSON value of the body for
`fmt = "json"`, the raw body text for every other format, and never resolves
successfully on a non-2xx response for any format. -/
theorem exportData_contract :
    (∀ status body v, parseJson body = some v →
      exportData ("json".toList) true status body = .ok (.json v)) ∧
    (∀ fmt status body, fmt ≠ "json".toList →
      exportData fmt true status body = .ok (.text body)) ∧
    (∀ fmt status body h, exportData fmt false status body ≠ .ok h) := by
  refine ⟨fun status body v hv => ?_, fun fmt status body hf => ?_,
    fun fmt status body h => ?_⟩
  · simp [exportData, handle, hv]
  · unfold exportData
    rw [if_neg hf]
    simp
  · unfold exportData
    by_cases hf : fmt = "json".toList
    · rw [if_pos hf]
      simp [handle]
    · rw [if_neg hf]
      simp

/-- Witness for C7: a parsed JSON export and a raw CSV export. -/
theorem exportData_contract_witness :
    exportData ("json".toList) true 200 ("[]".toList) = .ok (.json (.arr [])) ∧
    exportData ("csv".toList) true 200 ("a,b".toList) = .ok (.text ("a,b".toList)) :=
  ⟨exportData_contract.1 200 ("[]".toList) (.arr []) rfl,
   exportData_contract.2.1 ("csv".toList) 200 ("a,b".toList) (by decide)⟩

-- ---------------------------------------------------------------------------
-- `fetchCurrentFor` and enrichment isolation (C3)
-- ---------------------------------------------------------------------------

/-- The `resolved` part of a `/weather/current` response; the UI reads
`j?.resolved?.latitude` defensively, so the fields are optional. -/
structure Resolved where
  name : List Char
  latitude : Option ℚ
  longitude : Option ℚ

/-- A `/weather/current` response: `{resolved, data}`. -/
structure CurrentResp where
  resolved : Option Resolved
  data : Json

/-- A `/places/nearby` response; `r.items || []` falls back on a missing
`items`. -/
structure NearbyResp where
  items : Option (List Json)

/-- Result of one network call: resolved value or rejection. -/
inductive FetchOutcome (α : Type) where
  | ok (val : α)
  | err (e : JsError)

/-- The `App` state touched by `fetchCurrentFor`. -/
structure AppState where
  error : List Char
  current : Option CurrentResp
  pois : List Json
  astro : Option Json
  air : Option Json

/-- `getNearby(...).then(r=>setPois(r.items||[])).catch(()=>{})`. -/
def setPoisOn (st : AppState) (o : FetchOutcome NearbyResp) : AppState :=
  match o with
  | .ok r => { st with pois := r.items.getD [] }
  | .err _ => st

/-- `getAstronomy(...).then(setAstro).catch(()=>{})`. -/
def setAstroOn (st : AppState) (o : FetchOutcome Json) : AppState :=
  match o with
  | .ok a => { st with astro := some a }
  | .err _ => st

/-- `getAir(...).then(setAir).catch(()=>{})`. -/
def setAirOn (st : AppState) (o : FetchOutcome Json) : AppState :=
  match o with
  | .ok a => { st with air := some a }
  | .err _ => st

/-- `fetchCurrentFor(loc)` from `App.jsx`, as a function of the four network
outcomes: clear the error, fetch the weather (on rejection set the cleaned
error), store the response, and — when the resolved coordinates are non-null —
fire the three independent enrichment fetches, each absorbing its own
rejection with a no-op `catch`. -/
def fetchCurrentFor (st : AppState) (cur : FetchOutcome CurrentResp)
    (near : FetchOutcome NearbyResp) (astroOut airOut : FetchOutcome Json) :
    AppState :=
  let st0 := { st with error := [] }
  match cur with
  | .err e => { st0 with error := cleanErr e }
  | .ok j =>
    let st1 := { st0 with current := some j }
    match j.resolved with
    | none => st1
    | some res =>
      match res.latitude, res.longitude with
      | some _, some _ => setAirOn (setAstroOn (setPoisOn st1 near) astroOut) airOut
      | _, _ => st1

theorem setPoisOn_current (st : AppState) (o : FetchOutcome NearbyResp) :
    (setPoisOn st o).current = st.current := by
  cases o <;> rfl

theorem setPoisOn_error (st : AppState) (o : FetchOutcome NearbyResp) :
    (setPoisOn st o).error = st.error := by
  cases o <;> rfl

theorem setPoisOn_astro (st : AppState) (o : FetchOutcome NearbyResp) :
    (setPoisOn st o).astro = st.astro := by
  cases o <;> rfl

theorem setPoisOn_air (st : AppState) (o : FetchOutcome NearbyResp) :
    (setPoisOn st o).air = st.air := by
  cases o <;> rfl

theorem setPoisOn_pois_congr {st st' : AppState} (h : st.pois = st'.pois)
    (o : FetchOutcome NearbyResp) : (setPoisOn st o).pois = (setPoisOn st' o).pois := by
  cases o <;> simp [setPoisOn, h]

theorem setAstroOn_current (st : AppState) (o : FetchOutcome Json) :
    (setAstroOn st o).current = st.current := by
  cases o <;> rfl

theorem setAstroOn_error (st : AppState) (o : FetchOutcome Json) :
    (setAstroOn st o).error = st.error := by
  cases o <;> rfl

theorem setAstroOn_pois (st : AppState) (o : FetchOutcome Json) :
    (setAstroOn st o).pois = st.pois := by
  cases o <;> rfl

theorem setAstroOn_air (st : AppState) (o : FetchOutcome Json) :
    (setAstroOn st o).air = st.air := by
  cases o <;> rfl

theorem setAstroOn_astro_congr {st st' : AppState} (h : st.astro = st'.astro)
    (o : FetchOutcome Json) : (setAstroOn st o).astro = (setAstroOn st' o).astro := by
  cases o <;> simp [setAstroOn, h]

theorem setAirOn_current (st : AppState) (o : FetchOutcome Json) :
    (setAirOn st o).current = st.current := by
  cases o <;> rfl

theorem setAirOn_error (st : AppState) (o : FetchOutcome Json) :
    (setAirOn st o).error = st.error := by
  cases o <;> rfl

theorem setAirOn_pois (st : AppState) (o : FetchOutcome Json) :
    (setAirOn st o).pois = st.pois := by
  cases o <;> rfl

theorem setAirOn_astro (st : AppState) (o : FetchOutcome Json) :
    (setAirOn st o).astro = st.astro := by
  cases o <;> rfl

theorem setAirOn_air_congr {st st' : AppState} (h : st.air = st'.air)
    (o : FetchOutcome Json) : (setAirOn st o).air = (setAirOn st' o).air := by
  cases o <;> simp [setAirOn, h]

/-- C3: once `getCurrent` has succeeded with `j`, a rejection of any of the
three enrichment fetches leaves `current` (`some j`) and `error` (cleared)
unchanged, leaves its own slice of the state untouched (no-op `catch`), and
has no effect on the other two enrichment results: each of `pois`, `astro`,
`air` depends only on its own fetch outcome. -/
theorem enrichment_failures_isolated (st : AppState) (j : CurrentResp)
    (o1 : FetchOutcome NearbyResp) (o2 o3 : FetchOutcome Json) (e : JsError) :
    (fetchCurrentFor st (.ok j) o1 o2 o3).current = some j ∧
    (fetchCurrentFor st (.ok j) o1 o2 o3).error = [] ∧
    (fetchCurrentFor st (.ok j) (.err e) o2 o3).pois = st.pois ∧
    (fetchCurrentFor st (.ok j) o1 (.err e) o3).astro = st.astro ∧
    (fetchCurrentFor st (.ok j) o1 o2 (.err e)).air = st.air ∧
    (∀ o1' o3', (fetchCurrentFor st (.ok j) o1 o2 o3).astro =
      (fetchCurrentFor st (.ok j) o1' o2 o3').astro) ∧
    (∀ o2' o3', (fetchCurrentFor st (.ok j) o1 o2 o3).pois =
      (fetchCurrentFor st (.ok j) o1 o2' o3').pois) ∧
    (∀ o1' o2', (fetchCurrentFor st (.ok j) o1 o2 o3).air =
      (fetchCurrentFor st (.ok j) o1' o2' o3).air) := by
  unfold fetchCurrentFor
  rcases hres : j.resolved with _ | res
  · simp [hres]
  · rcases hla : res.latitude with _ | la
    · simp [hres, hla]
    · rcases hlo : res.longitude with _ | lo
      · simp [hres, hla, hlo]
      · simp only [hres, hla, hlo]
        refine ⟨?_, ?_, ?_, ?_, ?_, fun o1' o3' => ?_, fun o2' o3' => ?_,
          fun o1' o2' => ?_⟩
        · rw [setAirOn_current, setAstroOn_current, setPoisOn_current]
        · rw [setAirOn_error, setAstroOn_error, setPoisOn_error]
        · rw [setAirOn_pois, setAstroOn_pois]
          rfl
        · rw [setAirOn_astro]
          show (setPoisOn _ o1).astro = st.astro
          rw [setPoisOn_astro]
        · show (setAstroOn (setPoisOn _ o1) o2).air = st.air
          rw [setAstroOn_air, setPoisOn_air]
        · rw [setAirOn_astro, setAirOn_astro]
          exact setAstroOn_astro_congr (by rw [setPoisOn_astro, setPoisOn_astro]) o2
        · rw [setAirOn_pois, setAirOn_pois, setAstroOn_pois, setAstroOn_pois]
        · exact setAirOn_air_congr
            (by rw [setAstroOn_air, setAstroOn_air, setPoisOn_air, setPoisOn_air]) o3

-- ---------------------------------------------------------------------------
-- Display formatters (C8, C9) and the emoji mapper (C10)
-- ---------------------------------------------------------------------------

/-- `toF` from `App.jsx`: Celsius to Fahrenheit. -/
def toF (c : ℚ) : ℚ := c * 9 / 5 + 32

/-- `kmhToMph` from `App.jsx`. -/
def kmhToMph (kmh : ℚ) : ℚ := kmh * (621371 / 1000000 : ℚ)

/-- `Math.round` on the rational model: half-up (toward `+∞` on ties). -/
def jsRound (x : ℚ) : Int := ⌊x + 1 / 2⌋

/-- `fmtTemp` from `App.jsx`: `'—'` on a null value, otherwise the rounded
temperature in the selected unit. -/
def fmtTemp (c : Option ℚ) (unit : List Char) : List Char :=
  match c with
  | none => ['—']
  | some c =>
    if unit = "f".toList then (toString (jsRound (toF c))).toList ++ "°F".toList
    else (toString (jsRound c)).toList ++ "°C".toList

/-- `fmtWind` from `App.jsx`. -/
def fmtWind (kmh : Option ℚ) (unit : List Char) : List Char :=
  match kmh with
  | none => ['—']
  | some w =>
    if unit = "f".toList then
      (toString (jsRound (kmhToMph w))).toList ++ " mph".toList
    else (toString (jsRound w)).toList ++ " km/h".toList

/-- `fmtPrecip` from `App.jsx`: `mm.toFixed(1) + " mm"`. -/
def fmtPrecip (mm : Option ℚ) : List Char :=
  match mm with
  | none => ['—']
  | some m => jsToFixed 1 m ++ " mm".toList

/-- C8: unit conversion is purely presentational — with unit `'f'`, `fmtTemp`
displays `round(c * 9/5 + 32)` °F and `fmtWind` displays
`round(w * 0.621371)` mph; with unit `'c'` the server-provided metric values
are displayed without conversion (rounded for display only). -/
theorem unit_conversion_at_presentation (c w : ℚ) :
    fmtTemp (some c) ("f".toList) =
      (toString ⌊c * 9 / 5 + 32 + 1 / 2⌋).toList ++ "°F".toList ∧
    fmtWind (some w) ("f".toList) =
      (toString ⌊w * (621371 / 1000000 : ℚ) + 1 / 2⌋).toList ++ " mph".toList ∧
    fmtTemp (some c) ("c".toList) =
      (toString ⌊c + 1 / 2⌋).toList ++ "°C".toList ∧
    fmtWind (some w) ("c".toList) =
      (toString ⌊w + 1 / 2⌋).toList ++ " km/h".toList := by
  refine ⟨rfl, rfl, ?_, ?_⟩ <;>
    simp [fmtTemp, fmtWind, jsRound, show "c".toList ≠ "f".toList by decide]

/-- C9: the three formatters are total on missing data — a null/undefined
numeric field renders as the placeholder `'—'`. -/
theorem formatters_total_on_null (unit : List Char) :
    fmtTemp none unit = ['—'] ∧ fmtWind none unit = ['—'] ∧
    fmtPrecip none = ['—'] :=
  ⟨rfl, rfl, rfl⟩

/-- `wcToEmoji` from `App.jsx`. -/
def wcToEmoji (wcode : Int) : List Char :=
  if wcode ∈ ([0] : List Int) then "☀️".toList
  else if wcode ∈ ([1, 2, 3] : List Int) then "⛅".toList
  else if wcode ∈ ([45, 48] : List Int) then "🌫️".toList
  else if wcode ∈ ([51, 53, 55, 61, 63, 65, 80, 81, 82] : List Int) then "🌧️".toList
  else if wcode ∈ ([71, 73, 75, 85, 86] : List Int) then "❄️".toList
  else if wcode ∈ ([95, 96, 99] : List Int) then "⛈️".toList
  else "🌡️".toList

/-- C10: `wcToEmoji` is total, returns one of exactly seven fixed emoji
strings, and maps each weather code exactly as listed: 0 to sun, 1–3 to
partly-cloudy, 45/48 to fog, the drizzle/rain/shower codes to rain, the snow
codes to snow, the thunderstorm codes to storm, everything else to the
default thermometer. -/
theorem wcToEmoji_total_and_mapping (w : Int) :
    (wcToEmoji w = "☀️".toList ∨ wcToEmoji w = "⛅".toList ∨
     wcToEmoji w = "🌫️".toList ∨ wcToEmoji w = "🌧️".toList ∨
     wcToEmoji w = "❄️".toList ∨ wcToEmoji w = "⛈️".toList ∨
     wcToEmoji w = "🌡️".toList) ∧
    wcToEmoji w =
      (if w = 0 then "☀️".toList
       else if w = 1 ∨ w = 2 ∨ w = 3 then "⛅".toList
       else if w = 45 ∨ w = 48 then "🌫️".toList
       else if w = 51 ∨ w = 53 ∨ w = 55 ∨ w = 61 ∨ w = 63 ∨ w = 65 ∨
         w = 80 ∨ w = 81 ∨ w = 82 then "🌧️".toList
       else if w = 71 ∨ w = 73 ∨ w = 75 ∨ w = 85 ∨ w = 86 then "❄️".toList
       else if w = 95 ∨ w = 96 ∨ w = 99 then "⛈️".toList
       else "🌡️".toList) := by
  constructor
  · unfold wcToEmoji
    split_ifs <;> simp
  · unfold wcToEmoji
    simp only [List.mem_cons, List.mem_singleton, List.not_mem_nil, or_false]
